import Mathlib

/-!
# Verification of the fildir filtered-directory provider

Shallow embedding of `src/extension.ts` (class `FilteredDirectoryProvider`).
JavaScript strings are sequences of code units; the string primitives the
source uses (`startsWith`, `endsWith`, `split`, `join`, `trim`, indexing,
`substring`) are modelled structurally on `String.data :: List Char`, which
is their exact semantics on the inputs this code handles.

State modelled explicitly:
* `Filters`  — the `filters : Set<string>` field, as an insertion-ordered
  duplicate-free list (JS `Set` iteration order is insertion order).
* `RootNodes` — the `rootNodes : Map<string, string>` field, as an
  association list from workspace name to real base path.

External collaborators (the real filesystem, `vscode.workspace`
configuration, event emitters) are modelled as explicit inputs and outputs:
a real directory listing is an input, a delegated real-filesystem call is a
returned `RealFsCall` value, a thrown `vscode.FileSystemError` is an
`Except.error`.
-/

namespace Fildir

/-- JS `s.startsWith(pre)`: the code units of `pre` are a prefix of those of `s`. -/
def jsStartsWith (s pre : String) : Bool :=
List.isPrefixOf pre.data s.data

/-- JS `s.endsWith(post)`: the code units of `post` are a suffix of those of `s`. -/
def jsEndsWith (s post : String) : Bool :=
List.isSuffixOf post.data s.data

/-- JS `s[0] === "/"`: true iff `s` is nonempty and its first code unit is `/`
(on the empty string, `s[0]` is `undefined`, which is not `"/"`). -/
def headIsSlash (s : String) : Bool :=
match s.data with
| [] => false
| c :: _ => c = '/'

/-- JS `s.substring(1)`: drop the first code unit. -/
def jsSubstringOne (s : String) : String :=
String.mk (s.data.drop 1)

/-- Core of JS `s.split(sep)` for a one-character separator, on code-unit
lists. `split` of the empty string is `[""]`, and separators at the ends
produce empty fields, exactly as in JS. -/
def splitChars (sep : Char) : List Char → List (List Char)
| [] => [[]]
| c :: cs =>
  match splitChars sep cs with
  | [] => if c = sep then [[], []] else [[c]]
  | r :: rs => if c = sep then [] :: r :: rs else (c :: r) :: rs

/-- JS `s.split(sep)` for a one-character separator. -/
def jsSplit (s : String) (sep : Char) : List String :=
(splitChars sep s.data).map String.mk

/-- JS `array.join(sep)`. -/
def jsJoin (sep : String) : List String → String
| [] => ""
| [x] => x
| x :: xs => x ++ sep ++ jsJoin sep xs

/-- JS `s.trim()`: remove leading and trailing whitespace. -/
def jsTrim (s : String) : String :=
String.mk (((s.data.dropWhile Char.isWhitespace).reverse.dropWhile Char.isWhitespace).reverse)

/-- The entry kinds the claims concern, mirroring `vscode.FileType.File`
and `vscode.FileType.Directory` (the two kinds the source distinguishes:
`readDirectory` tests `direntType === vscode.FileType.Directory` and treats
everything else in its file branch). -/
inductive FileType where
| file : FileType
| directory : FileType
deriving DecidableEq, Repr

/-- The `filters : Set<string>` field: insertion-ordered, duplicate-free. -/
abbrev Filters := List String

/-- The `rootNodes : Map<string, string>` field: workspace name to real base path. -/
abbrev RootNodes := List (String × String)

/-- `prefixOfFilter` (extension.ts lines 268-276): the loop sets a flag when
`filter.startsWith(subpath + "/")` and never clears it. -/
def prefixOfFilter (filters : Filters) (subpath : String) : Bool :=
filters.foldl (fun acc filter => if jsStartsWith filter (subpath ++ "/") then true else acc) false

/-- `subpathMatchesFilter` (extension.ts lines 283-295): append `/` to the
subpath unless it already ends with one, then flag when
`subpath.startsWith(filter)`. -/
def subpathMatchesFilter (filters : Filters) (subpath : String) : Bool :=
let sp := if jsEndsWith subpath "/" then subpath else subpath ++ "/"
filters.foldl (fun acc filter => if jsStartsWith sp filter then true else acc) false

/-- The thrown error kind: `vscode.FileSystemError.FileNotFound(message)`
is the only error the resolver raises (extension.ts line 238). -/
inductive FsError where
| fileNotFound : String → FsError
deriving DecidableEq, Repr

/-- `splitRelativePath` (extension.ts lines 231-244): strip a leading `/`,
split on `/`, require the first segment to be a registered root name, and
return that name with the rest rejoined as the subpath. -/
def splitRelativePath (roots : RootNodes) (path : String) : Except FsError (String × String) :=
let p := if headIsSlash path then jsSubstringOne path else path
let segments := jsSplit p '/'
match roots.lookup (segments.headD "") with
| none => Except.error (FsError.fileNotFound ("Unknown root note: " ++ p))
| some _ => Except.ok (segments.headD "", jsJoin "/" (segments.drop 1))

/-- `convertPath` (extension.ts lines 255-259): resolve through
`splitRelativePath`, then prepend the root's real base path. -/
def convertPath (roots : RootNodes) (path : String) : Except FsError (String × String) := do
let (rootbase, subpath) ← splitRelativePath roots path
pure (((roots.lookup rootbase).getD "") ++ "/" ++ subpath, subpath)

/-- The `testpath` computed for a directory entry (extension.ts lines
398-399 and 407-408): `subpath.trim().length > 0 ? subpath + "/" + dirent : dirent`. -/
def direntTestpath (subpath dirent : String) : String :=
if (jsTrim subpath).length > 0 then subpath ++ "/" ++ dirent else dirent

/-- The body of the `readDirectory` entry loop (extension.ts lines 390-413),
with `matchesFilter` the value `subpathMatchesFilter(subpath)` computed once
before the loop. -/
def entryVisible (filters : Filters) (matchesFilter : Bool) (subpath dirent : String)
(direntType : FileType) : Bool :=
if matchesFilter then true
else if direntType = FileType.directory then prefixOfFilter filters (direntTestpath subpath dirent)
else subpathMatchesFilter filters (direntTestpath subpath dirent)

/-- The filtering pass of `readDirectory` (extension.ts lines 383-416): the
loop pushes exactly the entries the branch logic accepts, in listing order. -/
def readDirectoryFilter (filters : Filters) (subpath : String)
(finds : List (String × FileType)) : List (String × FileType) :=
let matchesFilter := subpathMatchesFilter filters subpath
finds.filter (fun e => entryVisible filters matchesFilter subpath e.1 e.2)

/-- `readDirectory` (extension.ts lines 367-417). The real listing that
`vscode.workspace.fs.readDirectory` returns at the resolved real path is an
explicit input `realListing`; at the virtual root the registered roots are
listed as directories (the rebuild that precedes this is reflected in the
`roots` argument). -/
def readDirectory (roots : RootNodes) (filters : Filters) (uriPath : String)
(realListing : List (String × FileType)) : Except FsError (List (String × FileType)) :=
if uriPath = "/" then Except.ok (roots.map (fun r => (r.1, FileType.directory)))
else do
  let (_path, subpath) ← convertPath roots uriPath
  pure (readDirectoryFilter filters subpath realListing)

/-- The descriptor `stat` builds for the virtual root (extension.ts lines 342-350). -/
structure FileStat where
  ctime : Nat
  mtime : Nat
  readonly : Bool
  size : Nat
  type : FileType
deriving DecidableEq, Repr

/-- What `stat` returns: the synthetic root descriptor, or a delegation of
the resolved real path to the real filesystem's stat. -/
inductive StatOutcome where
| synthetic : FileStat → StatOutcome
| real : String → StatOutcome
deriving DecidableEq, Repr

/-- `stat` (extension.ts lines 341-355): the virtual root is special-cased
before resolution; every other path resolves and delegates. -/
def stat (roots : RootNodes) (rebuildTime : Nat) (uriPath : String) : Except FsError StatOutcome :=
if uriPath = "/" then
  Except.ok (StatOutcome.synthetic
    { ctime := rebuildTime, mtime := rebuildTime, readonly := true, size := 0,
      type := FileType.directory })
else do
  let (path, _subpath) ← convertPath roots uriPath
  pure (StatOutcome.real path)

/-- The `options` argument of `writeFile` (extension.ts lines 439-443). -/
structure WriteOptions where
  create : Bool
  overwrite : Bool
deriving DecidableEq, Repr

/-- The `options` argument of `delete` (extension.ts line 450). -/
structure DeleteOptions where
  recursive : Bool
deriving DecidableEq, Repr

/-- The `options` argument of `rename` and `copy` (extension.ts lines 459, 473). -/
structure RenameOptions where
  overwrite : Bool
deriving DecidableEq, Repr

/-- A call delegated to `vscode.workspace.fs`, carrying exactly the
arguments the source passes through. -/
inductive RealFsCall where
| createDirectory : String → RealFsCall
| readFile : String → RealFsCall
| writeFile : String → List Nat → RealFsCall
| delete : String → DeleteOptions → RealFsCall
| rename : String → String → RenameOptions → RealFsCall
| copy : String → String → RenameOptions → RealFsCall
deriving DecidableEq, Repr

/-- `createDirectory` (extension.ts lines 429-432): resolve, then delegate. -/
def createDirectory (roots : RootNodes) (uriPath : String) : Except FsError RealFsCall := do
let (path, _subpath) ← convertPath roots uriPath
pure (RealFsCall.createDirectory path)

/-- `readFile` (extension.ts lines 434-437): resolve, then delegate. -/
def readFile (roots : RootNodes) (uriPath : String) : Except FsError RealFsCall := do
let (path, _subpath) ← convertPath roots uriPath
pure (RealFsCall.readFile path)

/-- `writeFile` (extension.ts lines 439-446): resolve, then delegate with the
content; the source passes only `(Uri.file(path), content)` to the real
filesystem, so the `options` argument does not reach the delegate. -/
def writeFile (roots : RootNodes) (uriPath : String) (content : List Nat)
(_options : WriteOptions) : Except FsError RealFsCall := do
let (path, _subpath) ← convertPath roots uriPath
pure (RealFsCall.writeFile path content)

/-- `delete` (extension.ts lines 448-454): resolve, then delegate with the options. -/
def delete (roots : RootNodes) (uriPath : String) (options : DeleteOptions) :
Except FsError RealFsCall := do
let (path, _subpath) ← convertPath roots uriPath
pure (RealFsCall.delete path options)

/-- `rename` (extension.ts lines 456-468): resolve both endpoints, then
delegate with the options. -/
def rename (roots : RootNodes) (oldUriPath newUriPath : String) (options : RenameOptions) :
Except FsError RealFsCall := do
let (oldpath, _oldsubpath) ← convertPath roots oldUriPath
let (newpath, _newsubpath) ← convertPath roots newUriPath
pure (RealFsCall.rename oldpath newpath options)

/-- `copy` (extension.ts lines 470-483): resolve both endpoints, then
delegate with the options. -/
def copy (roots : RootNodes) (sourceUriPath destUriPath : String) (options : RenameOptions) :
Except FsError RealFsCall := do
let (sourcepath, _s) ← convertPath roots sourceUriPath
let (destpath, _d) ← convertPath roots destUriPath
pure (RealFsCall.copy sourcepath destpath options)

/-- `reloadConfig` (extension.ts lines 17-34): build a fresh `Set` by adding
each fetched raw prefix, then replace the field with it. A JS `Set` keeps
the first occurrence of each element, in insertion order. -/
def reloadConfig (rawPrefixes : List String) : Filters :=
rawPrefixes.foldl (fun acc f => if f ∈ acc then acc else acc ++ [f]) []

/-- The observable outcome of one `addPrefix` call: the filter set
afterwards, the user-facing error messages shown, and the filter lists
persisted to configuration (by `afterPrefixChanges`, extension.ts lines 79-85). -/
structure AddPrefixOutcome where
  filters : Filters
  errorMessages : List String
  configWrites : List Filters
deriving DecidableEq, Repr

/-- `addPrefix` (extension.ts lines 42-63). `scheme` is `uri.scheme`;
`relPath` is what `vscode.workspace.asRelativePath(uri)` returns; `statType`
is the kind `vscode.workspace.fs.stat(uri)` reports. A non-`file` scheme
shows an error message and returns before touching any state; otherwise the
first path segment is dropped, a trailing `/` is appended for a directory,
the result is added to the set, and `afterPrefixChanges` persists it. -/
def addPrefixOp (filters : Filters) (scheme : String) (relPath : String)
(statType : FileType) : AddPrefixOutcome :=
if scheme ≠ "file" then
  { filters := filters, errorMessages := ["Fildir only supports local files"], configWrites := [] }
else
  let rel := if statType = FileType.directory
    then jsJoin "/" ((jsSplit relPath '/').drop 1) ++ "/"
    else jsJoin "/" ((jsSplit relPath '/').drop 1)
  let newFilters := if rel ∈ filters then filters else filters ++ [rel]
  { filters := newFilters, errorMessages := [], configWrites := [newFilters] }

/-- Spec wording for the `matched` predicate (claim C3): some stored filter
is a literal prefix of `subpath + "/"`. -/
def specMatched (filters : Filters) (subpath : String) : Bool :=
filters.any (fun f => jsStartsWith (subpath ++ "/") f)

/-- Spec wording for normalization on reload (claim C2): append a trailing
separator if absent. -/
def specNormalize (f : String) : String :=
if jsEndsWith f "/" then f else f ++ "/"

/-- Spec wording for the reloaded filter set (claim C2): the normalized
list, as a first-occurrence set. -/
def specReloadList (rawPrefixes : List String) : Filters :=
(rawPrefixes.map specNormalize).foldl (fun acc f => if f ∈ acc then acc else acc ++ [f]) []

/-- The test path exactly as claim C1 words it: `subpath/childName`, or
`childName` alone when the subpath is empty. -/
def specTestpath (subpath dirent : String) : String :=
if subpath = "" then dirent else subpath ++ "/" ++ dirent

/-- Entry visibility exactly as claim C1 words it. -/
def specVisible (filters : Filters) (subpath dirent : String) (direntType : FileType) : Bool :=
if subpathMatchesFilter filters subpath then true
else if direntType = FileType.directory then prefixOfFilter filters (specTestpath subpath dirent)
else subpathMatchesFilter filters (specTestpath subpath dirent)

/-- The listing claim C1 predicts: exactly the entries `specVisible` accepts. -/
def specListing (filters : Filters) (subpath : String) (finds : List (String × FileType)) :
List (String × FileType) :=
finds.filter (fun e => specVisible filters subpath e.1 e.2)

/-- The test path as amended claim C1 words it: `childName` alone when the
subpath is empty or all whitespace (its trim is empty), else `subpath/childName`. -/
def specTestpathAmended (subpath dirent : String) : String :=
if jsTrim subpath = "" then dirent else subpath ++ "/" ++ dirent

/-- Entry visibility as amended claim C1 words it. -/
def specVisibleAmended (filters : Filters) (subpath dirent : String) (direntType : FileType) : Bool :=
if subpathMatchesFilter filters subpath then true
else if direntType = FileType.directory then
  prefixOfFilter filters (specTestpathAmended subpath dirent)
else subpathMatchesFilter filters (specTestpathAmended subpath dirent)

/-- The listing amended claim C1 predicts. -/
def specListingAmended (filters : Filters) (subpath : String) (finds : List (String × FileType)) :
List (String × FileType) :=
finds.filter (fun e => specVisibleAmended filters subpath e.1 e.2)

/-- A filter "with its trailing separator removed" (claim C4's wording):
drop the final code unit. -/
def specStripTrailingSep (f : String) : String :=
String.mk f.data.dropLast

/- ### Helper lemmas -/

/-- A fold that raises a flag and never lowers it computes `any`. -/
theorem foldl_flag {α : Type} (p : α → Bool) (l : List α) (b : Bool) :
    l.foldl (fun acc x => if p x then true else acc) b = (b || l.any p) := by
  induction l generalizing b with
  | nil => simp
  | cons x xs ih =>
    simp only [List.foldl_cons, List.any_cons, ih]
    cases hpx : p x <;> simp [hpx]

/-- `prefixOfFilter` is the `any` of its per-filter test. -/
theorem prefixOfFilter_eq_any (F : Filters) (s : String) :
    prefixOfFilter F s = F.any (fun f => jsStartsWith f (s ++ "/")) := by
  unfold prefixOfFilter
  rw [foldl_flag]
  simp

/-- `subpathMatchesFilter` is the `any` of its per-filter test, on the
subpath with a separator appended when absent. -/
theorem subpathMatchesFilter_eq_any (F : Filters) (s : String) :
    subpathMatchesFilter F s
      = F.any (fun f => jsStartsWith (if jsEndsWith s "/" then s else s ++ "/") f) := by
  unfold subpathMatchesFilter
  rw [foldl_flag]
  simp

/-- Appending `"/"` always yields a string ending in `"/"`. -/
theorem jsEndsWith_append_slash (s : String) : jsEndsWith (s ++ "/") "/" = true := by
  have hd : (s ++ "/").data = s.data ++ ['/'] := by simp
  simp [jsEndsWith, List.isSuffixOf_iff_suffix, hd]

/-- A string starts with itself. -/
theorem jsStartsWith_self (s : String) : jsStartsWith s s = true := by
  simp [jsStartsWith, List.isPrefixOf_iff_prefix]

/-- A string ending in `"/"` is its stripped form with `"/"` re-appended. -/
theorem strip_append_slash (f : String) (hf : jsEndsWith f "/" = true) :
    (specStripTrailingSep f ++ "/").data = f.data := by
  have hsuf : ['/'] <:+ f.data := by
    simpa [jsEndsWith, List.isSuffixOf_iff_suffix] using hf
  obtain ⟨t, ht⟩ := hsuf
  have hdrop : f.data.dropLast = t := by
    rw [← ht]
    simp
  simp [specStripTrailingSep, hdrop, ← ht]

/- ### Claim C3 -/

/-- Claim C3 counterexample: with stored filter `"a//"` and subpath `"a/"`,
the claimed characterisation (some filter is a literal prefix of
`subpath + "/"`) says matched, but `subpathMatchesFilter` does not append a
separator to a subpath already ending in one, and reports unmatched. -/
theorem subpathMatchesFilter_c3_counterexample :
    specMatched ["a//"] "a/" = true ∧ subpathMatchesFilter ["a//"] "a/" = false := by
  decide

/-- Claim C3 (amended): `matched(subpath)` is true iff some stored filter is
a literal prefix of the subpath with a trailing separator appended if absent
(of the subpath itself when it already ends in `"/"`); and matching is
unaffected by a trailing separator on the subpath. -/
theorem subpathMatchesFilter_spec (F : Filters) (s : String) :
    (subpathMatchesFilter F s
      = F.any (fun f => jsStartsWith (if jsEndsWith s "/" then s else s ++ "/") f))
    ∧ (jsEndsWith s "/" = false →
        subpathMatchesFilter F s = subpathMatchesFilter F (s ++ "/")) := by
  refine ⟨subpathMatchesFilter_eq_any F s, fun h => ?_⟩
  rw [subpathMatchesFilter_eq_any, subpathMatchesFilter_eq_any, h,
    jsEndsWith_append_slash]
  simp

/-- Witness for `subpathMatchesFilter_spec` at filter set `["a/"]` and
subpath `"a"`. -/
theorem subpathMatchesFilter_spec_witness :
    jsEndsWith "a" "/" = false
    ∧ subpathMatchesFilter ["a/"] "a" = subpathMatchesFilter ["a/"] ("a" ++ "/") :=
  ⟨by decide, (subpathMatchesFilter_spec ["a/"] "a").2 (by decide)⟩

/- ### Claim C4 -/

/-- Claim C4: `isPrefixOfSomeFilter(subpath)` is true iff some stored filter
starts with `subpath + "/"`; every stored filter ending in `"/"` satisfies
it with its trailing separator removed, and fails it itself whenever no
stored filter begins with the filter plus a further separator. -/
theorem prefixOfFilter_spec (F : Filters) :
    (∀ s, prefixOfFilter F s = F.any (fun g => jsStartsWith g (s ++ "/")))
    ∧ (∀ f, f ∈ F → jsEndsWith f "/" = true →
        prefixOfFilter F (specStripTrailingSep f) = true
        ∧ (F.any (fun g => jsStartsWith g (f ++ "/")) = false →
            prefixOfFilter F f = false)) := by
  refine ⟨fun s => prefixOfFilter_eq_any F s, fun f hmem hf => ⟨?_, fun hnone => ?_⟩⟩
  · rw [prefixOfFilter_eq_any, List.any_eq_true]
    refine ⟨f, hmem, ?_⟩
    have hdata := strip_append_slash f hf
    simp [jsStartsWith, List.isPrefixOf_iff_prefix, hdata]
  · rw [prefixOfFilter_eq_any]
    exact hnone

/-- Witness for `prefixOfFilter_spec` at filter set `["a/"]` and its stored
filter `"a/"`. -/
theorem prefixOfFilter_spec_witness :
    prefixOfFilter ["a/"] (specStripTrailingSep "a/") = true
    ∧ prefixOfFilter ["a/"] "a/" = false :=
  ⟨((prefixOfFilter_spec ["a/"]).2 "a/" (by decide) (by decide)).1,
   ((prefixOfFilter_spec ["a/"]).2 "a/" (by decide) (by decide)).2 (by decide)⟩

/- ### Claim C1 -/

/-- The source's test path agrees with the amended claim's: the bare child
name is used exactly when the subpath trims to the empty string. -/
theorem direntTestpath_eq_spec (s d : String) :
    direntTestpath s d = specTestpathAmended s d := by
  unfold direntTestpath specTestpathAmended
  cases h : jsTrim s with
  | mk l =>
    cases l with
    | nil =>
      rw [if_neg (by decide : ¬((String.mk [] : String).length > 0)),
        if_pos (by rfl : (String.mk [] : String) = "")]
    | cons c cs =>
      rw [if_pos (show (String.mk (c :: cs)).length > 0 from Nat.succ_pos cs.length),
        if_neg (fun hc => by simpa using congrArg String.data hc)]

/-- Claim C1 counterexample: at the whitespace subpath `" "` (reachable, for
instance, as the listing of virtual path `/root/ ` under a root named
`root`), the source uses the bare child name as test path because the
subpath trims to empty, so directory `x` is visible under filter `"x/y/"`;
the claim's policy tests `" /x"` and predicts it hidden. -/
theorem readDirectory_c1_counterexample :
    readDirectoryFilter ["x/y/"] " " [("x", FileType.directory)]
      = [("x", FileType.directory)]
    ∧ specListing ["x/y/"] " " [("x", FileType.directory)] = [] := by
  decide

/-- Claim C1 (amended): for every non-root virtual directory listing,
visibility of each real entry follows the three-way policy — everything
visible when the subpath is matched; otherwise a directory entry is visible
iff `subpath/childName` is a prefix of some filter, and a file entry iff
`subpath/childName` is matched — where the bare child name stands in for
`subpath/childName` whenever the subpath is empty or all whitespace (its
trim is empty); no other entry is included. -/
theorem readDirectoryFilter_spec (F : Filters) (s : String)
    (finds : List (String × FileType)) :
    readDirectoryFilter F s finds = specListingAmended F s finds := by
  unfold readDirectoryFilter specListingAmended
  refine List.filter_congr ?_
  intro e _
  simp [entryVisible, specVisibleAmended, direntTestpath_eq_spec]

/- ### Claim C2 -/

/-- Membership in the set built by repeated `Set.add`. -/
theorem reload_fold_mem (raw : List String) (acc : List String) (f : String) :
    (f ∈ raw.foldl (fun acc g => if g ∈ acc then acc else acc ++ [g]) acc)
      ↔ f ∈ acc ∨ f ∈ raw := by
  induction raw generalizing acc with
  | nil => simp
  | cons x xs ih =>
    simp only [List.foldl_cons, ih, List.mem_cons]
    by_cases hx : x ∈ acc
    · simp only [if_pos hx]
      constructor
      · rintro (h | h)
        · exact Or.inl h
        · exact Or.inr (Or.inr h)
      · rintro (h | h | h)
        · exact Or.inl h
        · exact Or.inl (h ▸ hx)
        · exact Or.inr h
    · simp only [if_neg hx, List.mem_append, List.mem_singleton]
      tauto

/-- The set built by repeated `Set.add` has no duplicates. -/
theorem reload_fold_nodup (raw : List String) (acc : List String) (h : acc.Nodup) :
    (raw.foldl (fun acc g => if g ∈ acc then acc else acc ++ [g]) acc).Nodup := by
  induction raw generalizing acc with
  | nil => exact h
  | cons x xs ih =>
    simp only [List.foldl_cons]
    by_cases hx : x ∈ acc
    · rw [if_pos hx]
      exact ih acc h
    · rw [if_neg hx]
      refine ih (acc ++ [x]) ?_
      simp [List.nodup_append, h, hx, List.disjoint_singleton]

/-- Claim C2 counterexample: reloading the raw prefix list `["a"]` stores
`"a"` verbatim — no trailing separator is appended — while the claimed
normalized result would be `["a/"]`. -/
theorem reloadConfig_c2_counterexample :
    reloadConfig ["a"] = ["a"] ∧ specReloadList ["a"] = ["a/"]
    ∧ jsEndsWith "a" "/" = false := by
  decide

/-- Claim C2 (amended): after `reload()` on any raw prefix list, the
in-memory filter set holds exactly the raw prefixes, stored verbatim with no
trailing-separator normalization, with duplicates collapsed; the previous
set is fully replaced (the result depends only on the fetched list). -/
theorem reloadConfig_spec (raw : List String) :
    (∀ f, f ∈ reloadConfig raw ↔ f ∈ raw) ∧ (reloadConfig raw).Nodup := by
  constructor
  · intro f
    unfold reloadConfig
    rw [reload_fold_mem]
    simp
  · exact reload_fold_nodup raw [] List.nodup_nil

/- ### Claim C5 -/

/-- Resolution characterised by lookup of the first segment (helper shared
by the resolution claims). -/
theorem convertPath_eq_lookup (roots : RootNodes) (uriPath : String) :
    convertPath roots uriPath =
      (let p := if headIsSlash uriPath then jsSubstringOne uriPath else uriPath
       let segments := jsSplit p '/'
       let subpath := jsJoin "/" (segments.drop 1)
       match roots.lookup (segments.headD "") with
       | some base => Except.ok (base ++ "/" ++ subpath, subpath)
       | none => Except.error (FsError.fileNotFound ("Unknown root note: " ++ p))) := by
  unfold convertPath splitRelativePath
  dsimp only
  generalize (if headIsSlash uriPath then jsSubstringOne uriPath else uriPath) = p
  generalize jsSplit p '/' = segs
  cases h : List.lookup (segs.headD "") roots with
  | none => rfl
  | some base =>
    show Except.ok ((List.lookup (segs.headD "") roots).getD "" ++ "/"
        ++ jsJoin "/" (segs.drop 1), jsJoin "/" (segs.drop 1)) = _
    rw [h]
    rfl

/-- Claim C5: path resolution strips a leading separator, splits on `/`,
succeeds — returning the root's real base joined with the subpath, plus the
subpath — exactly when the first segment names a registered root, and
otherwise fails with the not-found error carrying the offending path; no
other failure kind exists. -/
theorem convertPath_spec (roots : RootNodes) (uriPath : String) :
    convertPath roots uriPath =
      (let p := if headIsSlash uriPath then jsSubstringOne uriPath else uriPath
       let segments := jsSplit p '/'
       let subpath := jsJoin "/" (segments.drop 1)
       match roots.lookup (segments.headD "") with
       | some base => Except.ok (base ++ "/" ++ subpath, subpath)
       | none => Except.error (FsError.fileNotFound ("Unknown root note: " ++ p))) :=
  convertPath_eq_lookup roots uriPath

/- ### Claim C6 -/

/-- With no filters, nothing passes the entry loop. -/
theorem readDirectoryFilter_nil (s : String) (finds : List (String × FileType)) :
    readDirectoryFilter [] s finds = [] := by
  unfold readDirectoryFilter
  have hvis : ∀ e : String × FileType,
      entryVisible [] (subpathMatchesFilter [] s) s e.1 e.2 = false := by
    intro e
    simp [entryVisible, subpathMatchesFilter, prefixOfFilter]
  simp [hvis]

/-- Claim C6: with an empty filter set, listing any resolvable non-root
virtual directory returns the empty list, whatever the real listing holds. -/
theorem readDirectory_empty_filters (roots : RootNodes) (uriPath : String)
    (realListing : List (String × FileType)) (rp sp : String)
    (hroot : uriPath ≠ "/") (hres : convertPath roots uriPath = Except.ok (rp, sp)) :
    readDirectory roots [] uriPath realListing = Except.ok [] := by
  unfold readDirectory
  rw [if_neg hroot]
  simp [hres, Bind.bind, Except.bind, Pure.pure, Except.pure, readDirectoryFilter_nil]

/-- Witness for `readDirectory_empty_filters` at root `proj` and virtual
path `/proj/a`. -/
theorem readDirectory_empty_filters_witness :
    ("/proj/a" ≠ "/")
    ∧ convertPath [("proj", "/w/proj")] "/proj/a" = Except.ok ("/w/proj/a", "a")
    ∧ readDirectory [("proj", "/w/proj")] [] "/proj/a"
        [("x", FileType.file), ("d", FileType.directory)] = Except.ok [] :=
  ⟨by decide, by rfl,
   readDirectory_empty_filters [("proj", "/w/proj")] "/proj/a"
     [("x", FileType.file), ("d", FileType.directory)] "/w/proj/a" "a"
     (by decide) (by rfl)⟩

/- ### Claim C7 -/

/-- Claim C7: `addPrefix` on a non-local scheme shows the user-facing error
message and returns with the filter set unchanged and nothing persisted; the
outcome is an ordinary return value, not a propagated exception. -/
theorem addPrefixOp_nonlocal (filters : Filters) (scheme relPath : String)
    (statType : FileType) (h : scheme ≠ "file") :
    addPrefixOp filters scheme relPath statType =
      { filters := filters, errorMessages := ["Fildir only supports local files"],
        configWrites := [] } := by
  unfold addPrefixOp
  rw [if_pos h]

/-- Witness for `addPrefixOp_nonlocal` at scheme `fildir`. -/
theorem addPrefixOp_nonlocal_witness :
    ("fildir" ≠ "file")
    ∧ addPrefixOp ["a/"] "fildir" "w/x" FileType.file =
      { filters := ["a/"], errorMessages := ["Fildir only supports local files"],
        configWrites := [] } :=
  ⟨by decide, addPrefixOp_nonlocal ["a/"] "fildir" "w/x" FileType.file (by decide)⟩

/- ### Claim C8 -/

/-- Claim C8 counterexample: `writeFile` does not forward its
create/overwrite options — two calls differing only in options delegate the
identical real-filesystem call. -/
theorem writeFile_c8_counterexample :
    ({ create := true, overwrite := true } : WriteOptions)
      ≠ { create := false, overwrite := false }
    ∧ writeFile [("r", "/w")] "/r/a" [1, 2] { create := true, overwrite := true }
      = writeFile [("r", "/w")] "/r/a" [1, 2] { create := false, overwrite := false } :=
  ⟨by decide, rfl⟩

/-- Claim C8 (amended): every mutation pass-through resolves its virtual
path argument(s) through `convertPath` and delegates to the real filesystem
with the resolved real path(s), forwarding content unchanged and — for
`delete`, `rename` and `copy` — options unchanged; `writeFile` forwards only
path and content, discarding its options; no filter enters the result. -/
theorem passThrough_spec (roots : RootNodes) (p q rp sp rq sq : String)
    (content : List Nat) (wopts : WriteOptions) (dopts : DeleteOptions)
    (ropts : RenameOptions)
    (hp : convertPath roots p = Except.ok (rp, sp))
    (hq : convertPath roots q = Except.ok (rq, sq)) :
    createDirectory roots p = Except.ok (RealFsCall.createDirectory rp)
    ∧ readFile roots p = Except.ok (RealFsCall.readFile rp)
    ∧ writeFile roots p content wopts = Except.ok (RealFsCall.writeFile rp content)
    ∧ delete roots p dopts = Except.ok (RealFsCall.delete rp dopts)
    ∧ rename roots p q ropts = Except.ok (RealFsCall.rename rp rq ropts)
    ∧ copy roots p q ropts = Except.ok (RealFsCall.copy rp rq ropts) := by
  unfold createDirectory readFile writeFile delete rename copy
  simp [hp, hq, Bind.bind, Except.bind, Pure.pure, Except.pure]

/- ### Claim C9 -/

/-- `subpathMatchesFilter` is monotone in the filter set. -/
theorem subpathMatchesFilter_mono (F G : Filters) (s : String)
    (hsub : ∀ f, f ∈ F → f ∈ G) (h : subpathMatchesFilter F s = true) :
    subpathMatchesFilter G s = true := by
  rw [subpathMatchesFilter_eq_any] at h ⊢
  rw [List.any_eq_true] at h ⊢
  obtain ⟨f, hf, hp⟩ := h
  exact ⟨f, hsub f hf, hp⟩

/-- `prefixOfFilter` is monotone in the filter set. -/
theorem prefixOfFilter_mono (F G : Filters) (s : String)
    (hsub : ∀ f, f ∈ F → f ∈ G) (h : prefixOfFilter F s = true) :
    prefixOfFilter G s = true := by
  rw [prefixOfFilter_eq_any] at h ⊢
  rw [List.any_eq_true] at h ⊢
  obtain ⟨f, hf, hp⟩ := h
  exact ⟨f, hsub f hf, hp⟩

/-- Claim C9: listing visibility is monotone in the filter set — for a fixed
subpath and fixed real listing, every entry visible under a filter set stays
visible under any superset. -/
theorem readDirectoryFilter_monotone (F G : Filters) (s : String)
    (finds : List (String × FileType)) (hsub : ∀ f, f ∈ F → f ∈ G) :
    ∀ e, e ∈ readDirectoryFilter F s finds → e ∈ readDirectoryFilter G s finds := by
  intro e he
  unfold readDirectoryFilter at he ⊢
  rw [List.mem_filter] at he ⊢
  refine ⟨he.1, ?_⟩
  have hvis := he.2
  unfold entryVisible at hvis ⊢
  by_cases hmG : subpathMatchesFilter G s = true
  · simp [hmG]
  · have hmF : subpathMatchesFilter F s = false := by
      cases hF : subpathMatchesFilter F s with
      | false => rfl
      | true => exact absurd (subpathMatchesFilter_mono F G s hsub hF) hmG
    rw [hmF] at hvis
    rw [Bool.not_eq_true] at hmG
    rw [hmG]
    simp only [if_false, Bool.false_eq_true]
    by_cases hd : e.2 = FileType.directory
    · rw [if_pos hd] at hvis ⊢
      exact prefixOfFilter_mono F G (direntTestpath s e.1) hsub (by simpa using hvis)
    · rw [if_neg hd] at hvis ⊢
      exact subpathMatchesFilter_mono F G (direntTestpath s e.1) hsub (by simpa using hvis)

/-- Witness for `readDirectoryFilter_monotone` at `["a/"] ⊆ ["a/", "b/"]`. -/
theorem readDirectoryFilter_monotone_witness :
    (∀ f, f ∈ (["a/"] : Filters) → f ∈ (["a/", "b/"] : Filters))
    ∧ ("a", FileType.directory) ∈ readDirectoryFilter ["a/", "b/"] "" [("a", FileType.directory)] :=
  ⟨by decide,
   readDirectoryFilter_monotone ["a/"] ["a/", "b/"] "" [("a", FileType.directory)]
     (by decide) ("a", FileType.directory) (by decide)⟩

/- ### Claim C10 -/

/-- Resolving the virtual root path itself fails with not-found whenever no
registered root is named the empty string: stripping the leading separator
leaves the empty path, whose first segment is the empty string. -/
theorem convertPath_root (roots : RootNodes) (h : List.lookup "" roots = none) :
    convertPath roots "/" = Except.error (FsError.fileNotFound "Unknown root note: ") := by
  rw [convertPath_eq_lookup]
  dsimp only
  have hsegs : jsSplit (if headIsSlash "/" then jsSubstringOne "/" else "/") '/' = [""] := by
    decide
  rw [hsegs]
  dsimp only [List.headD]
  rw [h]
  rfl

/-- Claim C10: for the virtual root path `"/"`, every operation that
resolves through path conversion fails with the not-found error (carrying
the stripped, empty offending path) whenever no registered root is named the
empty string; only `stat` and the directory listing special-case the root
before resolution and succeed. -/
theorem rootPath_resolution (roots : RootNodes) (h : List.lookup "" roots = none)
    (content : List Nat) (wopts : WriteOptions) (dopts : DeleteOptions)
    (ropts : RenameOptions) (q : String) (t : Nat) (filters : Filters)
    (realListing : List (String × FileType)) :
    createDirectory roots "/" = Except.error (FsError.fileNotFound "Unknown root note: ")
    ∧ readFile roots "/" = Except.error (FsError.fileNotFound "Unknown root note: ")
    ∧ writeFile roots "/" content wopts
        = Except.error (FsError.fileNotFound "Unknown root note: ")
    ∧ delete roots "/" dopts = Except.error (FsError.fileNotFound "Unknown root note: ")
    ∧ rename roots "/" q ropts = Except.error (FsError.fileNotFound "Unknown root note: ")
    ∧ copy roots "/" q ropts = Except.error (FsError.fileNotFound "Unknown root note: ")
    ∧ stat roots t "/" = Except.ok (StatOutcome.synthetic
        { ctime := t, mtime := t, readonly := true, size := 0, type := FileType.directory })
    ∧ readDirectory roots filters "/" realListing
        = Except.ok (roots.map (fun r => (r.1, FileType.directory))) := by
  have hc := convertPath_root roots h
  unfold createDirectory readFile writeFile delete rename copy stat readDirectory
  simp [hc, Bind.bind, Except.bind]

/-- Witness for `rootPath_resolution` with the single root `proj`. -/
theorem rootPath_resolution_witness :
    List.lookup "" ([("proj", "/w/proj")] : RootNodes) = none
    ∧ createDirectory [("proj", "/w/proj")] "/"
        = Except.error (FsError.fileNotFound "Unknown root note: ") :=
  ⟨by decide,
   (rootPath_resolution [("proj", "/w/proj")] (by decide) [] { create := true, overwrite := true }
     { recursive := false } { overwrite := false } "/proj" 7 ["a/"] [("x", FileType.file)]).1⟩

/-- Witness for `passThrough_spec` at root `r`, source `/r/a`,
destination `/r/b`. -/
theorem passThrough_spec_witness :
    convertPath [("r", "/w")] "/r/a" = Except.ok ("/w/a", "a")
    ∧ convertPath [("r", "/w")] "/r/b" = Except.ok ("/w/b", "b")
    ∧ rename [("r", "/w")] "/r/a" "/r/b" { overwrite := true }
      = Except.ok (RealFsCall.rename "/w/a" "/w/b" { overwrite := true }) :=
  ⟨by rfl, by rfl,
   (passThrough_spec [("r", "/w")] "/r/a" "/r/b" "/w/a" "a" "/w/b" "b"
     [] { create := true, overwrite := true } { recursive := false }
     { overwrite := true } (by rfl) (by rfl)).2.2.2.2.1⟩

end Fildir
